import Mathlib

/-!
Verification of the rorm-sql dialect-aware SQL rendering core.

The repository's `src/lib.rs` (the `DBImpl` entry points) is embedded
directly.  The submodules it references (`conditional`, `insert`,
`create_table`, `on_conflict`, ...) are part of the repository but their
sources are not available here; where a claim depends on them, the
corresponding definition is modelled from the specification and carries a
doc comment starting with `Modelled from the spec:`.

Rendered SQL text is represented as a list of fragments (`Frag`): literal
text pieces and placeholder tokens.  The final string is the concatenation
of the rendered fragments (`sqlText`), so the order of placeholders in the
string is exactly the order of placeholder fragments in the list.
-/

namespace RormSql

/-- The dialect selector, from `src/lib.rs` (`pub enum DBImpl`). -/
inductive DBImpl
  | SQLite
  | Postgres
  | MySQL
  deriving DecidableEq

/-- Modelled from the spec: the `value` module is not under `src/`.  The
spec (§3) describes `Value` as a tagged union over Null, Bool, the integer
widths, the two float widths, Text, Binary and naive date/time values.
Float payloads are modelled as opaque bit patterns (`Nat`) since no claim
computes with them. -/
inductive Value
  | Null
  | Bool (b : Bool)
  | I16 (i : Int)
  | I32 (i : Int)
  | I64 (i : Int)
  | F32 (bits : Nat)
  | F64 (bits : Nat)
  | Text (s : String)
  | Binary (bytes : List Nat)
  | NaiveDate (y m d : Nat)
  | NaiveTime (h min sec : Nat)
  | NaiveDateTime (y mo d h min sec : Nat)
  deriving DecidableEq

/-- Column annotations, from the external `rorm_declaration::imr` crate as
described by the spec (§3): PrimaryKey, AutoIncrement, NotNull, Unique,
Default, MaxLength, Index, ForeignKey. -/
inductive Annotation
  | PrimaryKey
  | AutoIncrement
  | NotNull
  | Unique
  | DefaultValue (v : Value)
  | MaxLength (n : Int)
  | Index (idxName : Option String)
  | ForeignKey (tableName : String) (columnName : String)
  deriving DecidableEq

/-- Shallow equality on annotations: true iff both sides are the same
variant, ignoring payloads (`Annotation::eq_shallow` in
`rorm_declaration`). -/
def Annotation.eq_shallow : Annotation → Annotation → Bool
  | .PrimaryKey, .PrimaryKey => true
  | .AutoIncrement, .AutoIncrement => true
  | .NotNull, .NotNull => true
  | .Unique, .Unique => true
  | .DefaultValue _, .DefaultValue _ => true
  | .MaxLength _, .MaxLength _ => true
  | .Index _, .Index _ => true
  | .ForeignKey _ _, .ForeignKey _ _ => true
  | _, _ => false

/-- Abstract column data types, from the external `rorm_declaration` crate
(a closed enumeration per the spec §3). -/
inductive DbType
  | VarChar
  | Binary
  | Int16
  | Int32
  | Int64
  | Float
  | Double
  | Boolean
  | Date
  | DateTime
  | Timestamp
  | Time
  deriving DecidableEq

/-- Wrapper around a borrowed annotation (`create_column::SQLAnnotation`),
as constructed in `DBImpl::create_column`. -/
structure SQLAnnotation where
  annotation : Annotation
  deriving DecidableEq

/-- Modelled from the spec: the `conditional` module is not under `src/`.
Comparators used by binary condition nodes (§3): equals, not-equals,
less/greater(-or-equal), LIKE. -/
inductive Comparator
  | Equals
  | NotEquals
  | Less
  | LessOrEquals
  | Greater
  | GreaterOrEquals
  | Like
  deriving DecidableEq

/-- Modelled from the spec: the `conditional` module is not under `src/`.
The recursive condition tree of §3: Conjunction/Disjunction over child
lists, unary NOT, column-vs-value and column-vs-column comparisons, IN
over a value list, IS (NOT) NULL, and a raw pre-rendered fragment. -/
inductive Condition
  | Conjunction (children : List Condition)
  | Disjunction (children : List Condition)
  | UnaryNot (child : Condition)
  | BinaryValue (lhs : String) (op : Comparator) (v : Value)
  | BinaryColumn (lhs : String) (op : Comparator) (rhs : String)
  | InList (lhs : String) (vs : List Value)
  | IsNull (lhs : String)
  | IsNotNull (lhs : String)
  | Raw (fragment : String)

/-- A fragment of rendered SQL text: either a literal piece of text or a
placeholder token carrying the 1-based position of its bound value in the
parameter list.  The final SQL string is the concatenation of the rendered
fragments, so fragment order is text order. -/
inductive Frag
  | lit (s : String)
  | placeholder (n : Nat)
  deriving DecidableEq

/-- Render one fragment as dialect text: placeholders render as the
positional marker for SQLite/MySQL and as the numbered marker for
Postgres (spec §6). -/
def Frag.render (db : DBImpl) : Frag → String
  | .lit s => s
  | .placeholder n =>
    match db with
    | .Postgres => "$" ++ toString n
    | _ => "?"

/-- The final SQL string of a fragment list. -/
def sqlText (db : DBImpl) (fs : List Frag) : String :=
  String.join (fs.map (Frag.render db))

/-- The 1-based parameter positions of the placeholders of a fragment
list, in the order they occur in the rendered text. -/
def phIndices (fs : List Frag) : List Nat :=
  fs.filterMap (fun f => match f with | .placeholder n => some n | .lit _ => none)

/-- Join fragment lists with a literal separator between consecutive
entries. -/
def joinFrags (sep : String) : List (List Frag) → List Frag
  | [] => []
  | [fs] => fs
  | fs :: fss => fs ++ Frag.lit sep :: joinFrags sep fss

/-- Combine the rendered children of a boolean group: an empty group
renders as the given stub, a single child is emitted bare, and two or more
children are joined by the separator and wrapped in parentheses
(spec §4.2). -/
def combineBool (stub sep : String) : List (List Frag) → List Frag
  | [] => [Frag.lit stub]
  | [fs] => fs
  | fss => Frag.lit "(" :: joinFrags sep fss ++ [Frag.lit ")"]

/-- SQL token of a comparator (dialect-identical, spec §4.2). -/
def Comparator.token : Comparator → String
  | .Equals => "="
  | .NotEquals => "<>"
  | .Less => "<"
  | .LessOrEquals => "<="
  | .Greater => ">"
  | .GreaterOrEquals => ">="
  | .Like => "LIKE"

mutual

/-- Modelled from the spec: the condition renderer of the missing
`conditional` module (§4.2).  Depth-first descent threading the single
parameter-list accumulator `l`; a value operand is rendered as a
placeholder whose number is the value's 1-based position in the
accumulator at the moment it is appended; empty boolean groups render as
the `1=1` / `1=0` stubs (§4.2 edge case policy). -/
def renderCond (db : DBImpl) : Condition → List Value → List Frag × List Value
  | .Conjunction cs, l =>
    let r := renderConds db cs l
    (combineBool "1=1" " AND " r.1, r.2)
  | .Disjunction cs, l =>
    let r := renderConds db cs l
    (combineBool "1=0" " OR " r.1, r.2)
  | .UnaryNot c, l =>
    let r := renderCond db c l
    (Frag.lit "NOT (" :: r.1 ++ [Frag.lit ")"], r.2)
  | .BinaryValue lhs op v, l =>
    ([Frag.lit (lhs ++ " " ++ Comparator.token op ++ " "), Frag.placeholder (l.length + 1)],
      l ++ [v])
  | .BinaryColumn lhs op rhs, l =>
    ([Frag.lit (lhs ++ " " ++ Comparator.token op ++ " " ++ rhs)], l)
  | .InList lhs vs, l =>
    (Frag.lit (lhs ++ " IN (") ::
      joinFrags ", " ((List.range' (l.length + 1) vs.length).map (fun n => [Frag.placeholder n]))
      ++ [Frag.lit ")"],
      l ++ vs)
  | .IsNull lhs, l => ([Frag.lit (lhs ++ " IS NULL")], l)
  | .IsNotNull lhs, l => ([Frag.lit (lhs ++ " IS NOT NULL")], l)
  | .Raw s, l => ([Frag.lit s], l)

/-- Render the children of a boolean group left to right, threading the
parameter accumulator through each child in turn. -/
def renderConds (db : DBImpl) : List Condition → List Value → List (List Frag) × List Value
  | [], l => ([], l)
  | c :: cs, l =>
    let r := renderCond db c l
    let rs := renderConds db cs r.2
    (r.1 :: rs.1, rs.2)

end

mutual

/-- The value leaves of a condition tree in depth-first (render) order. -/
def condValues : Condition → List Value
  | .Conjunction cs => condsValues cs
  | .Disjunction cs => condsValues cs
  | .UnaryNot c => condValues c
  | .BinaryValue _ _ v => [v]
  | .BinaryColumn _ _ _ => []
  | .InList _ vs => vs
  | .IsNull _ => []
  | .IsNotNull _ => []
  | .Raw _ => []

/-- The value leaves of a list of condition trees, in order. -/
def condsValues : List Condition → List Value
  | [] => []
  | c :: cs => condValues c ++ condsValues cs

end

mutual

/-- Apply a payload substitution to every `Value` occurring in a condition
tree, preserving the tree structure. -/
def mapValues (f : Value → Value) : Condition → Condition
  | .Conjunction cs => .Conjunction (mapValuesList f cs)
  | .Disjunction cs => .Disjunction (mapValuesList f cs)
  | .UnaryNot c => .UnaryNot (mapValues f c)
  | .BinaryValue lhs op v => .BinaryValue lhs op (f v)
  | .BinaryColumn lhs op rhs => .BinaryColumn lhs op rhs
  | .InList lhs vs => .InList lhs (vs.map f)
  | .IsNull lhs => .IsNull lhs
  | .IsNotNull lhs => .IsNotNull lhs
  | .Raw s => .Raw s

/-- `mapValues` over a list of condition trees. -/
def mapValuesList (f : Value → Value) : List Condition → List Condition
  | [] => []
  | c :: cs => mapValues f c :: mapValuesList f cs

end

/-- Error kinds of the `error` module, per the spec's error taxonomy (§7):
a structurally malformed request, a feature with no representation on the
selected dialect (naming the feature and the dialect), and an internal
invariant violation. -/
inductive Error
  | MalformedRequest
  | UnsupportedOnDialect (feature : String) (dialect : DBImpl)
  | InvariantViolation
  deriving DecidableEq

/-- The on-conflict policies of the `on_conflict` module (spec §3):
ABORT, ROLLBACK, FAIL, IGNORE and Upsert with the columns to update on
conflict.  `DBImpl::insert` and `DBImpl::update` initialise the policy to
`OnConflict::ABORT`. -/
inductive OnConflict
  | ABORT
  | ROLLBACK
  | FAIL
  | IGNORE
  | Upsert (update_columns : List String)
  deriving DecidableEq

/-- Identifier quoting per dialect (spec §6): double quotes for SQLite and
Postgres, backticks for MySQL. -/
def quoteId (db : DBImpl) (s : String) : String :=
  match db with
  | .MySQL => "`" ++ s ++ "`"
  | _ => "\"" ++ s ++ "\""

/-- Human-readable feature name of an on-conflict policy, used in
`UnsupportedOnDialect` errors. -/
def OnConflict.featureName : OnConflict → String
  | .ABORT => "on conflict abort"
  | .ROLLBACK => "on conflict rollback"
  | .FAIL => "on conflict fail"
  | .IGNORE => "on conflict ignore"
  | .Upsert _ => "upsert"

/-- Modelled from the spec: the `on_conflict` module is not under `src/`.
Whether a policy has a representation on a dialect.  The spec (§4.4, §8
Scenario 4) requires some dialect to lack upsert support without naming
which; this model takes MySQL as the dialect without upsert support and
all other combinations as supported. -/
def supports (db : DBImpl) : OnConflict → Bool
  | .Upsert _ => match db with | .MySQL => false | _ => true
  | _ => true

/-- Modelled from the spec: the conflict clause text emitted for a policy
that the dialect supports (§4.4).  ABORT is every dialect's default and
adds no clause; the others add a literal clause.  No clause ever contains
a placeholder or appends a value. -/
def conflictClause (db : DBImpl) : OnConflict → List Frag
  | .ABORT => []
  | .ROLLBACK => [Frag.lit " OR ROLLBACK"]
  | .FAIL => [Frag.lit " OR FAIL"]
  | .IGNORE =>
    match db with
    | .MySQL => [Frag.lit " ON DUPLICATE KEY IGNORE"]
    | _ => [Frag.lit " ON CONFLICT DO NOTHING"]
  | .Upsert cols =>
    [Frag.lit (" ON CONFLICT DO UPDATE SET " ++
      String.intercalate ", " (cols.map (fun c => quoteId db c ++ " = excluded." ++ quoteId db c)))]

/-- Modelled from the spec: the on-conflict resolver (§4.4).  A supported
policy maps to its clause text; an unsupported policy fails with a
structured `UnsupportedOnDialect` error naming the feature and the
dialect, never silently degrading to a different policy. -/
def resolveOnConflict (db : DBImpl) (p : OnConflict) : Except Error (List Frag) :=
  if supports db p then Except.ok (conflictClause db p)
  else Except.error (Error.UnsupportedOnDialect (OnConflict.featureName p) db)

/-- Builder data for a SQLite column (`create_column::CreateColumnSQLiteData`),
as constructed in `DBImpl::create_column`: name, owning table, data type,
the sorted annotation list, and the two optional accumulator handles that
start out unset. -/
structure CreateColumnSQLiteData where
  name : String
  table_name : String
  data_type : DbType
  annotations : List SQLAnnotation
  statements : Option (List (String × List Value))
  lookup : Option (List Value)
  deriving DecidableEq

/-- Builder data for a MySQL column (`create_column::CreateColumnMySQLData`),
as constructed in `DBImpl::create_column`. -/
structure CreateColumnMySQLData where
  name : String
  data_type : DbType
  annotations : List SQLAnnotation
  statements : Option (List (String × List Value))
  lookup : Option (List Value)
  deriving DecidableEq

/-- Builder data for a Postgres column
(`create_column::CreateColumnPostgresData`), as constructed in
`DBImpl::create_column`. -/
structure CreateColumnPostgresData where
  name : String
  table_name : String
  data_type : DbType
  annotations : List SQLAnnotation
  statements : Option (List (String × List Value))
  deriving DecidableEq

/-- The per-dialect column builder (`create_column::CreateColumnImpl`). -/
inductive CreateColumnImpl
  | SQLite (d : CreateColumnSQLiteData)
  | MySQL (d : CreateColumnMySQLData)
  | Postgres (d : CreateColumnPostgresData)
  deriving DecidableEq

/-- The annotation list stored inside a column builder, whichever dialect
variant it is. -/
def CreateColumnImpl.storedAnnotations : CreateColumnImpl → List SQLAnnotation
  | .SQLite d => d.annotations
  | .MySQL d => d.annotations
  | .Postgres d => d.annotations

/-- `DBImpl::create_column` from `src/lib.rs` lines 228-277: two passes
over the input push first every annotation that is shallow-equal to
`PrimaryKey`, then every other annotation, into the list `a`; the dialect
match then builds the per-dialect column data — storing `a` for SQLite
and an empty annotation list for MySQL and Postgres. -/
def DBImpl.create_column (db : DBImpl) (table_name name : String) (data_type : DbType)
    (annotations : List Annotation) : CreateColumnImpl :=
  let a : List SQLAnnotation :=
    annotations.foldl
      (fun acc x => if Annotation.eq_shallow x .PrimaryKey then acc ++ [⟨x⟩] else acc) []
  let a : List SQLAnnotation :=
    annotations.foldl
      (fun acc x => if ¬ Annotation.eq_shallow x .PrimaryKey then acc ++ [⟨x⟩] else acc) a
  match db with
  | .SQLite =>
    CreateColumnImpl.SQLite
      { name := name, table_name := table_name, data_type := data_type,
        annotations := a, statements := none, lookup := none }
  | .MySQL =>
    CreateColumnImpl.MySQL
      { name := name, data_type := data_type, annotations := [],
        statements := none, lookup := none }
  | .Postgres =>
    CreateColumnImpl.Postgres
      { name := name, table_name := table_name, data_type := data_type,
        annotations := [], statements := none }

/-- Modelled from the spec: the `alter_table` module is not under `src/`.
The single designated operation of an ALTER TABLE statement (§4.4): add a
column, drop a column, or rename. -/
inductive AlterTableOperation
  | AddColumn (col : CreateColumnImpl)
  | DropColumn (colName : String)
  | RenameTo (newName : String)
  deriving DecidableEq

/-- Builder data for CREATE TABLE (`create_table::CreateTableData`), as
constructed in `DBImpl::create_table`. -/
structure CreateTableData where
  name : String
  columns : List CreateColumnImpl
  if_not_exists : Bool
  lookup : List Value
  statements : List (String × List Value)
  deriving DecidableEq

/-- The per-dialect CREATE TABLE builder (`create_table::CreateTableImpl`). -/
inductive CreateTableImpl
  | SQLite (d : CreateTableData)
  | MySQL (d : CreateTableData)
  | Postgres (d : CreateTableData)
  deriving DecidableEq

/-- The data carried by a CREATE TABLE builder. -/
def CreateTableImpl.data : CreateTableImpl → CreateTableData
  | .SQLite d => d
  | .MySQL d => d
  | .Postgres d => d

/-- The dialect a CREATE TABLE builder variant corresponds to. -/
def CreateTableImpl.dialect : CreateTableImpl → DBImpl
  | .SQLite _ => .SQLite
  | .MySQL _ => .MySQL
  | .Postgres _ => .Postgres

/-- `DBImpl::create_table` from `src/lib.rs` lines 85-108. -/
def DBImpl.create_table (db : DBImpl) (name : String) : CreateTableImpl :=
  let d : CreateTableData :=
    { name := name, columns := [], if_not_exists := false, lookup := [], statements := [] }
  match db with
  | .SQLite => CreateTableImpl.SQLite d
  | .MySQL => CreateTableImpl.MySQL d
  | .Postgres => CreateTableImpl.Postgres d

/-- Trigger timing (`create_trigger::SQLCreateTriggerPointInTime`). -/
inductive SQLCreateTriggerPointInTime
  | Before
  | After
  | InsteadOf
  deriving DecidableEq

/-- Trigger operation (`create_trigger::SQLCreateTriggerOperation`). -/
inductive SQLCreateTriggerOperation
  | Insert
  | Update
  | Delete
  deriving DecidableEq

/-- The CREATE TRIGGER builder (`create_trigger::SQLCreateTrigger`), as
constructed in `DBImpl::create_trigger`: a single struct with no
per-dialect variants. -/
structure SQLCreateTrigger where
  name : String
  table_name : String
  if_not_exists : Bool
  point_in_time : Option SQLCreateTriggerPointInTime
  operation : SQLCreateTriggerOperation
  statements : List String
  for_each_row : Bool
  deriving DecidableEq

set_option linter.unusedVariables false in
/-- `DBImpl::create_trigger` from `src/lib.rs` lines 118-134.  Note that
the body never inspects `db`: the same struct is returned for every
dialect. -/
def DBImpl.create_trigger (db : DBImpl) (name table_name : String)
    (point_in_time : Option SQLCreateTriggerPointInTime)
    (operation : SQLCreateTriggerOperation) : SQLCreateTrigger :=
  { name := name, table_name := table_name, if_not_exists := false,
    point_in_time := point_in_time, operation := operation,
    statements := [], for_each_row := false }

/-- Builder data for CREATE INDEX (`create_index::CreateIndexData`), as
constructed in `DBImpl::create_index`. -/
structure CreateIndexData where
  name : String
  table_name : String
  unique : Bool
  if_not_exists : Bool
  columns : List String
  condition : Option Condition

/-- The per-dialect CREATE INDEX builder (`create_index::CreateIndexImpl`);
the SQLite variant is spelled `Sqlite` in the source. -/
inductive CreateIndexImpl
  | Sqlite (d : CreateIndexData)
  | MySQL (d : CreateIndexData)
  | Postgres (d : CreateIndexData)

/-- The data carried by a CREATE INDEX builder. -/
def CreateIndexImpl.data : CreateIndexImpl → CreateIndexData
  | .Sqlite d => d
  | .MySQL d => d
  | .Postgres d => d

/-- The dialect a CREATE INDEX builder variant corresponds to. -/
def CreateIndexImpl.dialect : CreateIndexImpl → DBImpl
  | .Sqlite _ => .SQLite
  | .MySQL _ => .MySQL
  | .Postgres _ => .Postgres

/-- `DBImpl::create_index` from `src/lib.rs` lines 142-164. -/
def DBImpl.create_index (db : DBImpl) (name table_name : String) : CreateIndexImpl :=
  let d : CreateIndexData :=
    { name := name, table_name := table_name, unique := false, if_not_exists := false,
      columns := [], condition := none }
  match db with
  | .SQLite => CreateIndexImpl.Sqlite d
  | .MySQL => CreateIndexImpl.MySQL d
  | .Postgres => CreateIndexImpl.Postgres d

/-- Builder data for DROP TABLE (`drop_table::DropTableData`), as
constructed in `DBImpl::drop_table`. -/
structure DropTableData where
  name : String
  if_exists : Bool
  deriving DecidableEq

/-- The per-dialect DROP TABLE builder (`drop_table::DropTableImpl`). -/
inductive DropTableImpl
  | SQLite (d : DropTableData)
  | MySQL (d : DropTableData)
  | Postgres (d : DropTableData)
  deriving DecidableEq

/-- The data carried by a DROP TABLE builder. -/
def DropTableImpl.data : DropTableImpl → DropTableData
  | .SQLite d => d
  | .MySQL d => d
  | .Postgres d => d

/-- The dialect a DROP TABLE builder variant corresponds to. -/
def DropTableImpl.dialect : DropTableImpl → DBImpl
  | .SQLite _ => .SQLite
  | .MySQL _ => .MySQL
  | .Postgres _ => .Postgres

/-- `DBImpl::drop_table` from `src/lib.rs` lines 171-187. -/
def DBImpl.drop_table (db : DBImpl) (name : String) : DropTableImpl :=
  let d : DropTableData := { name := name, if_exists := false }
  match db with
  | .SQLite => DropTableImpl.SQLite d
  | .MySQL => DropTableImpl.MySQL d
  | .Postgres => DropTableImpl.Postgres d

/-- Builder data for ALTER TABLE (`alter_table::AlterTableData`), as
constructed in `DBImpl::alter_table`. -/
structure AlterTableData where
  name : String
  operation : AlterTableOperation
  lookup : List Value
  statements : List (String × List Value)
  deriving DecidableEq

/-- The per-dialect ALTER TABLE builder (`alter_table::AlterTableImpl`). -/
inductive AlterTableImpl
  | SQLite (d : AlterTableData)
  | MySQL (d : AlterTableData)
  | Postgres (d : AlterTableData)
  deriving DecidableEq

/-- The data carried by an ALTER TABLE builder. -/
def AlterTableImpl.data : AlterTableImpl → AlterTableData
  | .SQLite d => d
  | .MySQL d => d
  | .Postgres d => d

/-- The dialect an ALTER TABLE builder variant corresponds to. -/
def AlterTableImpl.dialect : AlterTableImpl → DBImpl
  | .SQLite _ => .SQLite
  | .MySQL _ => .MySQL
  | .Postgres _ => .Postgres

/-- `DBImpl::alter_table` from `src/lib.rs` lines 195-218. -/
def DBImpl.alter_table (db : DBImpl) (name : String) (operation : AlterTableOperation) :
    AlterTableImpl :=
  let d : AlterTableData :=
    { name := name, operation := operation, lookup := [], statements := [] }
  match db with
  | .SQLite => AlterTableImpl.SQLite d
  | .MySQL => AlterTableImpl.MySQL d
  | .Postgres => AlterTableImpl.Postgres d

/-- Builder data for SELECT (`select::SelectData`), as constructed in
`DBImpl::select`. -/
structure SelectData where
  resulting_columns : List String
  limit : Option Nat
  offset : Option Nat
  from_clause : String
  where_clause : Option Condition
  distinct : Bool
  lookup : List Value

/-- The per-dialect SELECT builder (`select::SelectImpl`). -/
inductive SelectImpl
  | SQLite (d : SelectData)
  | MySQL (d : SelectData)
  | Postgres (d : SelectData)

/-- The data carried by a SELECT builder. -/
def SelectImpl.data : SelectImpl → SelectData
  | .SQLite d => d
  | .MySQL d => d
  | .Postgres d => d

/-- The dialect a SELECT builder variant corresponds to. -/
def SelectImpl.dialect : SelectImpl → DBImpl
  | .SQLite _ => .SQLite
  | .MySQL _ => .MySQL
  | .Postgres _ => .Postgres

/-- `DBImpl::select` from `src/lib.rs` lines 286-308. -/
def DBImpl.select (db : DBImpl) (columns : List String) (from_clause : String) : SelectImpl :=
  let d : SelectData :=
    { resulting_columns := columns, limit := none, offset := none,
      from_clause := from_clause, where_clause := none, distinct := false, lookup := [] }
  match db with
  | .SQLite => SelectImpl.SQLite d
  | .MySQL => SelectImpl.MySQL d
  | .Postgres => SelectImpl.Postgres d

/-- Builder data for INSERT (`insert::InsertData`), as constructed in
`DBImpl::insert`. -/
structure InsertData where
  into_clause : String
  columns : List String
  row_values : List (List Value)
  lookup : List Value
  on_conflict : OnConflict
  deriving DecidableEq

/-- The per-dialect INSERT builder (`insert::InsertImpl`). -/
inductive InsertImpl
  | SQLite (d : InsertData)
  | MySQL (d : InsertData)
  | Postgres (d : InsertData)
  deriving DecidableEq

/-- The data carried by an INSERT builder. -/
def InsertImpl.data : InsertImpl → InsertData
  | .SQLite d => d
  | .MySQL d => d
  | .Postgres d => d

/-- The dialect an INSERT builder variant corresponds to. -/
def InsertImpl.dialect : InsertImpl → DBImpl
  | .SQLite _ => .SQLite
  | .MySQL _ => .MySQL
  | .Postgres _ => .Postgres

/-- `DBImpl::insert` from `src/lib.rs` lines 318-342. -/
def DBImpl.insert (db : DBImpl) (into_clause : String) (insert_columns : List String)
    (insert_values : List (List Value)) : InsertImpl :=
  let d : InsertData :=
    { into_clause := into_clause, columns := insert_columns, row_values := insert_values,
      lookup := [], on_conflict := OnConflict.ABORT }
  match db with
  | .SQLite => InsertImpl.SQLite d
  | .MySQL => InsertImpl.MySQL d
  | .Postgres => InsertImpl.Postgres d

/-- Builder data for DELETE (`delete::DeleteData`), as constructed in
`DBImpl::delete`. -/
structure DeleteData where
  model : String
  lookup : List Value
  where_clause : Option Condition

/-- The per-dialect DELETE builder (`delete::DeleteImpl`). -/
inductive DeleteImpl
  | SQLite (d : DeleteData)
  | MySQL (d : DeleteData)
  | Postgres (d : DeleteData)

/-- The data carried by a DELETE builder. -/
def DeleteImpl.data : DeleteImpl → DeleteData
  | .SQLite d => d
  | .MySQL d => d
  | .Postgres d => d

/-- The dialect a DELETE builder variant corresponds to. -/
def DeleteImpl.dialect : DeleteImpl → DBImpl
  | .SQLite _ => .SQLite
  | .MySQL _ => .MySQL
  | .Postgres _ => .Postgres

/-- `DBImpl::delete` from `src/lib.rs` lines 350-367. -/
def DBImpl.delete (db : DBImpl) (table_name : String) : DeleteImpl :=
  let d : DeleteData := { model := table_name, lookup := [], where_clause := none }
  match db with
  | .SQLite => DeleteImpl.SQLite d
  | .MySQL => DeleteImpl.MySQL d
  | .Postgres => DeleteImpl.Postgres d

/-- Builder data for UPDATE (`update::UpdateData`), as constructed in
`DBImpl::update`. -/
structure UpdateData where
  model : String
  on_conflict : OnConflict
  updates : List (String × Value)
  where_clause : Option Condition
  lookup : List Value

/-- The per-dialect UPDATE builder (`update::UpdateImpl`). -/
inductive UpdateImpl
  | SQLite (d : UpdateData)
  | MySQL (d : UpdateData)
  | Postgres (d : UpdateData)

/-- The data carried by an UPDATE builder. -/
def UpdateImpl.data : UpdateImpl → UpdateData
  | .SQLite d => d
  | .MySQL d => d
  | .Postgres d => d

/-- The dialect an UPDATE builder variant corresponds to. -/
def UpdateImpl.dialect : UpdateImpl → DBImpl
  | .SQLite _ => .SQLite
  | .MySQL _ => .MySQL
  | .Postgres _ => .Postgres

/-- `DBImpl::update` from `src/lib.rs` lines 375-394. -/
def DBImpl.update (db : DBImpl) (table_name : String) : UpdateImpl :=
  let d : UpdateData :=
    { model := table_name, on_conflict := OnConflict.ABORT, updates := [],
      where_clause := none, lookup := [] }
  match db with
  | .SQLite => UpdateImpl.SQLite d
  | .MySQL => UpdateImpl.MySQL d
  | .Postgres => UpdateImpl.Postgres d

/-- Render one row of an INSERT as a parenthesized, comma-joined group of
placeholders, one per value, numbered consecutively from the current
parameter-list length, and append the row's values to the list. -/
def renderRow (l row : List Value) : List Frag × List Value :=
  (Frag.lit "(" ::
    joinFrags ", " ((List.range' (l.length + 1) row.length).map (fun n => [Frag.placeholder n]))
    ++ [Frag.lit ")"],
    l ++ row)

/-- Render every row of an INSERT in order, threading the parameter
accumulator through each row in turn. -/
def renderRows : List (List Value) → List Value → List (List Frag) × List Value
  | [], l => ([], l)
  | row :: rows, l =>
    let r := renderRow l row
    let rs := renderRows rows r.2
    (r.1 :: rs.1, rs.2)

/-- Modelled from the spec: the terminal render of the missing `insert`
module (§4.4).  Requires at least one row and that every row's arity
matches the column count exactly (mismatch is a build-time
`MalformedRequest`, raised before any text is produced); resolves the
on-conflict policy through the resolver; emits every value across every
row as a placeholder in row-major order while appending it to the
parameter list. -/
def renderInsert (db : DBImpl) (d : InsertData) : Except Error (List Frag × List Value) :=
  if d.row_values.isEmpty then Except.error Error.MalformedRequest
  else if d.row_values.all (fun row => row.length = d.columns.length) then
    match resolveOnConflict db d.on_conflict with
    | Except.error e => Except.error e
    | Except.ok cf =>
      let r := renderRows d.row_values d.lookup
      Except.ok
        (Frag.lit ("INSERT INTO " ++ quoteId db d.into_clause ++ " (" ++
            String.intercalate ", " (d.columns.map (quoteId db)) ++ ") VALUES ") ::
          joinFrags ", " r.1 ++ cf,
          r.2)
  else Except.error Error.MalformedRequest

/-- Modelled from the spec: the terminal render of the missing `select`
module (§4.4).  A missing from-clause or an empty result-column list is a
`MalformedRequest`; DISTINCT, WHERE (via the condition renderer, threading
the builder's parameter accumulator), LIMIT and OFFSET are optional. -/
def renderSelect (db : DBImpl) (d : SelectData) : Except Error (List Frag × List Value) :=
  if d.from_clause = "" then Except.error Error.MalformedRequest
  else if d.resulting_columns.isEmpty then Except.error Error.MalformedRequest
  else
    let head := "SELECT " ++ (if d.distinct then "DISTINCT " else "") ++
      String.intercalate ", " (d.resulting_columns.map (quoteId db)) ++
      " FROM " ++ quoteId db d.from_clause
    let w : List Frag × List Value :=
      match d.where_clause with
      | none => ([], d.lookup)
      | some c =>
        let r := renderCond db c d.lookup
        (Frag.lit " WHERE " :: r.1, r.2)
    let tail :=
      (match d.limit with | none => "" | some n => " LIMIT " ++ toString n) ++
      (match d.offset with | none => "" | some n => " OFFSET " ++ toString n)
    Except.ok (Frag.lit head :: w.1 ++ [Frag.lit tail], w.2)

/-- Modelled from the spec: the per-dialect native type keyword table of
the missing `create_column` module (§4.3). -/
def renderDbType (db : DBImpl) : DbType → String
  | .VarChar => "VARCHAR(255)"
  | .Binary => "BLOB"
  | .Int16 => "SMALLINT"
  | .Int32 => "INTEGER"
  | .Int64 => "BIGINT"
  | .Float => "REAL"
  | .Double => "DOUBLE PRECISION"
  | .Boolean => match db with | .MySQL => "TINYINT(1)" | _ => "BOOLEAN"
  | .Date => "DATE"
  | .DateTime => "DATETIME"
  | .Timestamp => "TIMESTAMP"
  | .Time => "TIME"

/-- Modelled from the spec: the per-dialect autoincrement keyword
(§4.3). -/
def autoIncrementKeyword (db : DBImpl) : String :=
  match db with
  | .SQLite => "AUTOINCREMENT"
  | .MySQL => "AUTO_INCREMENT"
  | .Postgres => "GENERATED ALWAYS AS IDENTITY"

/-- Modelled from the spec: the suffix emitted for one annotation by the
annotation renderer of the missing `create_column` module (§4.3).  A
default value is emitted as a placeholder with the value appended to the
parameter accumulator, never as inline literal text; MaxLength and Index
contribute no inline suffix (they affect the type keyword and the
trailing-statement accumulator instead). -/
def renderAnnotationFrag (db : DBImpl) (s : SQLAnnotation) (l : List Value) :
    List Frag × List Value :=
  match s.1 with
  | .PrimaryKey => ([Frag.lit "PRIMARY KEY"], l)
  | .AutoIncrement => ([Frag.lit (autoIncrementKeyword db)], l)
  | .NotNull => ([Frag.lit "NOT NULL"], l)
  | .Unique => ([Frag.lit "UNIQUE"], l)
  | .DefaultValue v => ([Frag.lit "DEFAULT ", Frag.placeholder (l.length + 1)], l ++ [v])
  | .MaxLength _ => ([], l)
  | .Index _ => ([], l)
  | .ForeignKey t c =>
    ([Frag.lit ("REFERENCES " ++ quoteId db t ++ "(" ++ quoteId db c ++ ")")], l)

/-- Modelled from the spec: render one column definition (§4.3): quoted
name, type keyword, then the stored annotations in stored order. -/
def renderCreateColumn (db : DBImpl) (c : CreateColumnImpl) (l : List Value) :
    List Frag × List Value :=
  let colName :=
    match c with
    | .SQLite d => d.name
    | .MySQL d => d.name
    | .Postgres d => d.name
  let ty :=
    match c with
    | .SQLite d => d.data_type
    | .MySQL d => d.data_type
    | .Postgres d => d.data_type
  let r := (CreateColumnImpl.storedAnnotations c).foldl
    (fun (acc : List Frag × List Value) s =>
      let ra := renderAnnotationFrag db s acc.2
      (acc.1 ++ Frag.lit " " :: ra.1, ra.2))
    ([], l)
  (Frag.lit (quoteId db colName ++ " " ++ renderDbType db ty) :: r.1, r.2)

/-- Modelled from the spec: the terminal render of the missing
`create_table` module (§4.4).  Validates that at least one column exists
(`MalformedRequest` otherwise) and renders
`CREATE TABLE [IF NOT EXISTS] name (col defs...)`. -/
def renderCreateTable (db : DBImpl) (d : CreateTableData) : Except Error (List Frag × List Value) :=
  if d.columns.isEmpty then Except.error Error.MalformedRequest
  else
    let cols := d.columns.foldl
      (fun (acc : List (List Frag) × List Value) c =>
        let rc := renderCreateColumn db c acc.2
        (acc.1 ++ [rc.1], rc.2))
      ([], d.lookup)
    Except.ok
      (Frag.lit ("CREATE TABLE " ++ (if d.if_not_exists then "IF NOT EXISTS " else "") ++
          quoteId db d.name ++ " (") ::
        joinFrags ", " cols.1 ++ [Frag.lit ");"],
        cols.2)

/-- Modelled from the spec: the terminal render of the missing
`create_index` module (§4.4).  Requires at least one indexed column
(`MalformedRequest` otherwise); UNIQUE and IF NOT EXISTS are independent
flags; the optional partial-index condition goes through the condition
renderer. -/
def renderCreateIndex (db : DBImpl) (d : CreateIndexData) : Except Error (List Frag × List Value) :=
  if d.columns.isEmpty then Except.error Error.MalformedRequest
  else
    let head := "CREATE " ++ (if d.unique then "UNIQUE " else "") ++ "INDEX " ++
      (if d.if_not_exists then "IF NOT EXISTS " else "") ++ quoteId db d.name ++ " ON " ++
      quoteId db d.table_name ++ " (" ++
      String.intercalate ", " (d.columns.map (quoteId db)) ++ ")"
    let w : List Frag × List Value :=
      match d.condition with
      | none => ([], [])
      | some c =>
        let r := renderCond db c []
        (Frag.lit " WHERE " :: r.1, r.2)
    Except.ok (Frag.lit head :: w.1, w.2)

/-- Terminal render of an INSERT builder (the `Insert::build` trait
method): each dialect variant renders its data under its own dialect. -/
def InsertImpl.build : InsertImpl → Except Error (List Frag × List Value)
  | .SQLite d => renderInsert .SQLite d
  | .MySQL d => renderInsert .MySQL d
  | .Postgres d => renderInsert .Postgres d

/-- Terminal render of a CREATE TABLE builder (the `CreateTable::build`
trait method). -/
def CreateTableImpl.build : CreateTableImpl → Except Error (List Frag × List Value)
  | .SQLite d => renderCreateTable .SQLite d
  | .MySQL d => renderCreateTable .MySQL d
  | .Postgres d => renderCreateTable .Postgres d

/-- Terminal render of a SELECT builder (the `Select::build` trait
method). -/
def SelectImpl.build : SelectImpl → Except Error (List Frag × List Value)
  | .SQLite d => renderSelect .SQLite d
  | .MySQL d => renderSelect .MySQL d
  | .Postgres d => renderSelect .Postgres d

/-- Terminal render of a CREATE INDEX builder (the `CreateIndex::build`
trait method). -/
def CreateIndexImpl.build : CreateIndexImpl → Except Error (List Frag × List Value)
  | .Sqlite d => renderCreateIndex .SQLite d
  | .MySQL d => renderCreateIndex .MySQL d
  | .Postgres d => renderCreateIndex .Postgres d

/-- Replace every value payload of an INSERT's rows (structure-preserving
substitution, used to state payload-independence of the rendered text). -/
def mapInsertValues (f : Value → Value) (d : InsertData) : InsertData :=
  { d with row_values := d.row_values.map (fun row => row.map f) }

/-- The value leaves contributed by an optional WHERE clause. -/
def whereValues : Option Condition → List Value
  | none => []
  | some c => condValues c

/-! ## Helper lemmas -/

theorem phIndices_append (a b : List Frag) : phIndices (a ++ b) = phIndices a ++ phIndices b :=
  List.filterMap_append a b _

theorem phIndices_lit (s : String) (fs : List Frag) :
    phIndices (Frag.lit s :: fs) = phIndices fs := by
  simp [phIndices, List.filterMap_cons]

theorem phIndices_ph (n : Nat) (fs : List Frag) :
    phIndices (Frag.placeholder n :: fs) = n :: phIndices fs := by
  simp [phIndices, List.filterMap_cons]

theorem phIndices_nil : phIndices [] = [] := rfl

theorem phIndices_joinFrags (sep : String) (fss : List (List Frag)) :
    phIndices (joinFrags sep fss) = (fss.map phIndices).flatten := by
  induction fss with
  | nil => simp [joinFrags, phIndices_nil]
  | cons fs fss ih =>
    cases fss with
    | nil => simp [joinFrags]
    | cons gs gss =>
      simp only [joinFrags, List.map_cons, List.flatten_cons] at ih ⊢
      rw [phIndices_append, ← ih]
      rw [phIndices_lit]

theorem phIndices_combineBool (stub sep : String) (fss : List (List Frag)) :
    phIndices (combineBool stub sep fss) = (fss.map phIndices).flatten := by
  match fss with
  | [] => simp [combineBool, phIndices]
  | [fs] => simp [combineBool]
  | fs :: gs :: gss =>
    show phIndices ((Frag.lit "(" :: joinFrags sep (fs :: gs :: gss)) ++ [Frag.lit ")"]) = _
    rw [phIndices_append, phIndices_lit, phIndices_joinFrags]
    simp [phIndices]

theorem phIndices_singletons (sep : String) (ns : List Nat) :
    phIndices (joinFrags sep (ns.map (fun n => [Frag.placeholder n]))) = ns := by
  rw [phIndices_joinFrags, List.map_map]
  induction ns with
  | nil => simp
  | cons n ns ih =>
    simp only [List.map_cons, List.flatten_cons] at ih ⊢
    rw [ih]
    simp [phIndices, List.filterMap_cons]

theorem range'_glue (s m n : Nat) :
    List.range' s m ++ List.range' (s + m) n = List.range' s (m + n) := by
  have h := List.range'_append s m n 1
  simp only [Nat.one_mul, Nat.add_comm n m] at h
  exact h

mutual

/-- Output contract of the condition renderer: the resulting parameter
list is the input accumulator followed by the tree's value leaves in
depth-first order, and the placeholders occurring in the emitted
fragments are, in order, exactly the 1-based positions of those appended
values. -/
theorem renderCond_out (db : DBImpl) (c : Condition) (l : List Value) :
    (renderCond db c l).2 = l ++ condValues c ∧
    phIndices (renderCond db c l).1 = List.range' (l.length + 1) (condValues c).length := by
  match c with
  | .Conjunction cs =>
    have h := renderConds_out db cs l
    simp only [renderCond, condValues]
    exact ⟨h.1, by rw [phIndices_combineBool, h.2]⟩
  | .Disjunction cs =>
    have h := renderConds_out db cs l
    simp only [renderCond, condValues]
    exact ⟨h.1, by rw [phIndices_combineBool, h.2]⟩
  | .UnaryNot c =>
    have h := renderCond_out db c l
    simp only [renderCond, condValues]
    exact ⟨h.1, by rw [phIndices_append, phIndices_lit, h.2]; simp [phIndices]⟩
  | .BinaryValue lhs op v =>
    refine ⟨rfl, ?_⟩
    simp only [renderCond, condValues, List.length_cons, List.length_nil]
    rw [phIndices_lit, phIndices_ph, phIndices_nil, List.range'_one]
  | .BinaryColumn lhs op rhs =>
    refine ⟨by simp [renderCond, condValues], ?_⟩
    simp [renderCond, condValues, phIndices]
  | .InList lhs vs =>
    refine ⟨rfl, ?_⟩
    simp only [renderCond, condValues]
    rw [phIndices_append, phIndices_lit, phIndices_singletons]
    simp [phIndices, List.length_range']
  | .IsNull lhs =>
    refine ⟨by simp [renderCond, condValues], by simp [renderCond, condValues, phIndices]⟩
  | .IsNotNull lhs =>
    refine ⟨by simp [renderCond, condValues], by simp [renderCond, condValues, phIndices]⟩
  | .Raw s =>
    refine ⟨by simp [renderCond, condValues], by simp [renderCond, condValues, phIndices]⟩

/-- Output contract of the child-list renderer, threading the parameter
accumulator left to right. -/
theorem renderConds_out (db : DBImpl) (cs : List Condition) (l : List Value) :
    (renderConds db cs l).2 = l ++ condsValues cs ∧
    ((renderConds db cs l).1.map phIndices).flatten =
      List.range' (l.length + 1) (condsValues cs).length := by
  match cs with
  | [] => exact ⟨by simp [renderConds, condsValues], by simp [renderConds, condsValues]⟩
  | c :: cs =>
    have hc := renderCond_out db c l
    have hcs := renderConds_out db cs (renderCond db c l).2
    simp only [renderConds, condsValues]
    constructor
    · rw [hcs.1, hc.1, List.append_assoc]
    · simp only [List.map_cons, List.flatten_cons]
      rw [hc.2, hcs.2, hc.1, List.length_append]
      have : l.length + (condValues c).length + 1 = l.length + 1 + (condValues c).length := by
        omega
      rw [this, range'_glue, List.length_append]

end

mutual

/-- A payload substitution maps the value leaves pointwise. -/
theorem condValues_mapValues (f : Value → Value) (c : Condition) :
    condValues (mapValues f c) = (condValues c).map f := by
  match c with
  | .Conjunction cs => simp only [mapValues, condValues]; exact condsValues_mapValuesList f cs
  | .Disjunction cs => simp only [mapValues, condValues]; exact condsValues_mapValuesList f cs
  | .UnaryNot c => simp only [mapValues, condValues]; exact condValues_mapValues f c
  | .BinaryValue lhs op v => simp [mapValues, condValues]
  | .BinaryColumn lhs op rhs => simp [mapValues, condValues]
  | .InList lhs vs => simp [mapValues, condValues]
  | .IsNull lhs => simp [mapValues, condValues]
  | .IsNotNull lhs => simp [mapValues, condValues]
  | .Raw s => simp [mapValues, condValues]

/-- `condValues_mapValues` for child lists. -/
theorem condsValues_mapValuesList (f : Value → Value) (cs : List Condition) :
    condsValues (mapValuesList f cs) = (condsValues cs).map f := by
  match cs with
  | [] => simp [mapValuesList, condsValues]
  | c :: cs =>
    simp only [mapValuesList, condsValues, List.map_append]
    rw [condValues_mapValues f c, condsValues_mapValuesList f cs]

end

mutual

/-- Injection safety of the condition renderer: substituting the payload
of every value leaf leaves the emitted fragments (and hence the SQL text)
unchanged, provided the two parameter accumulators have equal length.
The values only reach the output through the parameter list. -/
theorem renderCond_text (db : DBImpl) (f : Value → Value) (c : Condition) (l l' : List Value)
    (h : l'.length = l.length) :
    (renderCond db (mapValues f c) l').1 = (renderCond db c l).1 := by
  match c with
  | .Conjunction cs =>
    simp only [mapValues, renderCond]
    rw [renderConds_text db f cs l l' h]
  | .Disjunction cs =>
    simp only [mapValues, renderCond]
    rw [renderConds_text db f cs l l' h]
  | .UnaryNot c =>
    simp only [mapValues, renderCond]
    rw [renderCond_text db f c l l' h]
  | .BinaryValue lhs op v => simp [mapValues, renderCond, h]
  | .BinaryColumn lhs op rhs => simp [mapValues, renderCond]
  | .InList lhs vs => simp [mapValues, renderCond, h]
  | .IsNull lhs => simp [mapValues, renderCond]
  | .IsNotNull lhs => simp [mapValues, renderCond]
  | .Raw s => simp [mapValues, renderCond]

/-- `renderCond_text` for child lists. -/
theorem renderConds_text (db : DBImpl) (f : Value → Value) (cs : List Condition)
    (l l' : List Value) (h : l'.length = l.length) :
    (renderConds db (mapValuesList f cs) l').1 = (renderConds db cs l).1 := by
  match cs with
  | [] => simp [mapValuesList, renderConds]
  | c :: cs =>
    simp only [mapValuesList, renderConds]
    have hlen : (renderCond db (mapValues f c) l').2.length = (renderCond db c l).2.length := by
      rw [(renderCond_out db (mapValues f c) l').1, (renderCond_out db c l).1,
        List.length_append, List.length_append, condValues_mapValues, List.length_map, h]
    rw [renderCond_text db f c l l' h,
      renderConds_text db f cs (renderCond db c l).2 (renderCond db (mapValues f c) l').2 hlen]

end

theorem renderRow_out (l row : List Value) :
    (renderRow l row).2 = l ++ row ∧
    phIndices (renderRow l row).1 = List.range' (l.length + 1) row.length := by
  refine ⟨rfl, ?_⟩
  show phIndices ((Frag.lit "(" ::
    joinFrags ", " ((List.range' (l.length + 1) row.length).map (fun n => [Frag.placeholder n])))
    ++ [Frag.lit ")"]) = _
  rw [phIndices_append, phIndices_lit, phIndices_singletons]
  simp [phIndices]

/-- `renderRow` emits fragments that depend only on the lengths involved,
never on the value payloads. -/
theorem renderRow_text (l l' row row' : List Value) (hl : l'.length = l.length)
    (hr : row'.length = row.length) : (renderRow l' row').1 = (renderRow l row).1 := by
  simp [renderRow, hl, hr]

/-- Output contract of the INSERT row renderer: values are appended in
row-major order and the placeholders of the emitted row groups are, in
order, the 1-based positions of those values. -/
theorem renderRows_out (rows : List (List Value)) (l : List Value) :
    (renderRows rows l).2 = l ++ rows.flatten ∧
    ((renderRows rows l).1.map phIndices).flatten =
      List.range' (l.length + 1) rows.flatten.length := by
  induction rows generalizing l with
  | nil => exact ⟨by simp [renderRows], by simp [renderRows]⟩
  | cons row rows ih =>
    have hr := renderRow_out l row
    have hrs := ih (renderRow l row).2
    simp only [renderRows, List.flatten_cons]
    constructor
    · rw [hrs.1, hr.1, List.append_assoc]
    · simp only [List.map_cons, List.flatten_cons]
      rw [hr.2, hrs.2, hr.1, List.length_append]
      have : l.length + row.length + 1 = l.length + 1 + row.length := by omega
      rw [this, range'_glue, List.length_append]

/-- The row-group fragments depend only on the row arities, never on the
value payloads. -/
theorem renderRows_text (f : Value → Value) (rows : List (List Value)) (l l' : List Value)
    (hl : l'.length = l.length) :
    (renderRows (rows.map (fun row => row.map f)) l').1 = (renderRows rows l).1 := by
  induction rows generalizing l l' with
  | nil => simp [renderRows]
  | cons row rows ih =>
    simp only [List.map_cons, renderRows]
    have hlen : (renderRow l' (row.map f)).2.length = (renderRow l row).2.length := by
      rw [(renderRow_out l' (row.map f)).1, (renderRow_out l row).1,
        List.length_append, List.length_append, List.length_map, hl]
    rw [renderRow_text l l' row (row.map f) hl (List.length_map row f),
      ih (renderRow l row).2 (renderRow l' (row.map f)).2 hlen]

/-- Conflict clauses are pure literal text: they never contain a
placeholder. -/
theorem phIndices_conflictClause (db : DBImpl) (p : OnConflict) :
    phIndices (conflictClause db p) = [] := by
  cases p <;> cases db <;> simp [conflictClause, phIndices]

/-- If every row has arity `c`, the flattened value list has length
`rows.length * c`. -/
theorem flatten_length_arity (rows : List (List Value)) (c : Nat)
    (h : ∀ r ∈ rows, r.length = c) : rows.flatten.length = rows.length * c := by
  induction rows with
  | nil => simp
  | cons row rows ih =>
    simp only [List.flatten_cons, List.length_append, List.length_cons]
    rw [h row (by simp), ih (fun r hr => h r (by simp [hr]))]
    ring

/-- Success characterization of the INSERT render: with at least one row,
matching arities and a supported conflict policy, the render succeeds,
the parameter list is the accumulator followed by the rows in row-major
order, and the placeholders are numbered consecutively from the first
appended value's position. -/
theorem renderInsert_ok (db : DBImpl) (d : InsertData) (hne : d.row_values ≠ [])
    (har : ∀ r ∈ d.row_values, r.length = d.columns.length)
    (hsup : supports db d.on_conflict = true) :
    renderInsert db d =
      Except.ok
        (Frag.lit ("INSERT INTO " ++ quoteId db d.into_clause ++ " (" ++
            String.intercalate ", " (d.columns.map (quoteId db)) ++ ") VALUES ") ::
          joinFrags ", " (renderRows d.row_values d.lookup).1 ++
            conflictClause db d.on_conflict,
          d.lookup ++ d.row_values.flatten) := by
  have hemp : d.row_values.isEmpty = false := by
    cases h : d.row_values with
    | nil => exact absurd h hne
    | cons a b => simp [h]
  have hall : d.row_values.all (fun row => row.length = d.columns.length) = true := by
    rw [List.all_eq_true]
    intro r hr
    simp [har r hr]
  rw [renderInsert]
  rw [hemp]
  simp only [Bool.false_eq_true, if_false, hall, if_true]
  rw [resolveOnConflict, hsup]
  simp only [if_true]
  rw [(renderRows_out d.row_values d.lookup).1]

/-- The placeholder positions of a successful INSERT render are exactly
`1 .. n` shifted by the initial accumulator length. -/
theorem renderInsert_ok_ph (db : DBImpl) (d : InsertData) :
    phIndices
        (Frag.lit ("INSERT INTO " ++ quoteId db d.into_clause ++ " (" ++
            String.intercalate ", " (d.columns.map (quoteId db)) ++ ") VALUES ") ::
          joinFrags ", " (renderRows d.row_values d.lookup).1 ++
            conflictClause db d.on_conflict) =
      List.range' (d.lookup.length + 1) d.row_values.flatten.length := by
  show phIndices ((Frag.lit _ :: joinFrags ", " (renderRows d.row_values d.lookup).1) ++
    conflictClause db d.on_conflict) = _
  rw [phIndices_append, phIndices_lit, phIndices_joinFrags, phIndices_conflictClause,
    (renderRows_out d.row_values d.lookup).2, List.append_nil]

/-- An INSERT with no rows fails with `MalformedRequest`. -/
theorem renderInsert_err_empty (db : DBImpl) (d : InsertData) (h : d.row_values = []) :
    renderInsert db d = Except.error Error.MalformedRequest := by
  rw [renderInsert, h]
  simp

/-- An INSERT in which some row's arity differs from the column count
fails with `MalformedRequest`. -/
theorem renderInsert_err_arity (db : DBImpl) (d : InsertData) (r : List Value)
    (hr : r ∈ d.row_values) (hl : r.length ≠ d.columns.length) :
    renderInsert db d = Except.error Error.MalformedRequest := by
  have hemp : d.row_values.isEmpty = false := by
    cases h : d.row_values with
    | nil => rw [h] at hr; simp at hr
    | cons a b => simp [h]
  have hall : d.row_values.all (fun row => row.length = d.columns.length) = false := by
    rw [List.all_eq_false]
    exact ⟨r, hr, by simp [hl]⟩
  rw [renderInsert, hemp]
  simp only [Bool.false_eq_true, if_false, hall]

/-- An INSERT whose conflict policy is unsupported on the dialect fails
with the structured `UnsupportedOnDialect` error naming the policy and
the dialect. -/
theorem renderInsert_err_conflict (db : DBImpl) (d : InsertData) (hne : d.row_values ≠ [])
    (har : ∀ r ∈ d.row_values, r.length = d.columns.length)
    (hsup : supports db d.on_conflict = false) :
    renderInsert db d =
      Except.error (Error.UnsupportedOnDialect (OnConflict.featureName d.on_conflict) db) := by
  have hemp : d.row_values.isEmpty = false := by
    cases h : d.row_values with
    | nil => exact absurd h hne
    | cons a b => simp [h]
  have hall : d.row_values.all (fun row => row.length = d.columns.length) = true := by
    rw [List.all_eq_true]
    intro r hr
    simp [har r hr]
  rw [renderInsert, hemp]
  simp only [Bool.false_eq_true, if_false, hall, if_true]
  rw [resolveOnConflict, hsup]
  simp

/-- Inversion of a successful INSERT render: the parameter list is the
accumulator followed by the rows in row-major order, and the placeholders
are numbered consecutively with the values' 1-based positions. -/
theorem renderInsert_inv (db : DBImpl) (d : InsertData) (fs : List Frag) (ps : List Value)
    (h : renderInsert db d = Except.ok (fs, ps)) :
    ps = d.lookup ++ d.row_values.flatten ∧
    phIndices fs = List.range' (d.lookup.length + 1) d.row_values.flatten.length := by
  have hne : d.row_values ≠ [] := by
    intro hx
    rw [renderInsert_err_empty db d hx] at h
    exact absurd h (by simp)
  have har : ∀ r ∈ d.row_values, r.length = d.columns.length := by
    intro r hr
    by_contra hx
    rw [renderInsert_err_arity db d r hr hx] at h
    exact absurd h (by simp)
  have hsup : supports db d.on_conflict = true := by
    cases hx : supports db d.on_conflict with
    | true => rfl
    | false =>
      rw [renderInsert_err_conflict db d hne har hx] at h
      exact absurd h (by simp)
  rw [renderInsert_ok db d hne har hsup] at h
  have h2 := (Except.ok.injEq _ _ ▸ h)
  have hfs : fs = Frag.lit ("INSERT INTO " ++ quoteId db d.into_clause ++ " (" ++
      String.intercalate ", " (d.columns.map (quoteId db)) ++ ") VALUES ") ::
      joinFrags ", " (renderRows d.row_values d.lookup).1 ++ conflictClause db d.on_conflict := by
    have := congrArg (fun x : Except Error (List Frag × List Value) =>
      match x with | Except.ok p => p.1 | Except.error _ => []) h
    simp at this
    exact this.symm
  have hps : ps = d.lookup ++ d.row_values.flatten := by
    have := congrArg (fun x : Except Error (List Frag × List Value) =>
      match x with | Except.ok p => p.2 | Except.error _ => []) h
    simp at this
    exact this.symm
  exact ⟨hps, by rw [hfs]; exact renderInsert_ok_ph db d⟩

/-- Injection safety of the INSERT render: substituting every value
payload leaves the emitted fragments (and hence the SQL text) unchanged;
the payloads reach the output only through the parameter list. -/
theorem renderInsert_text_map (db : DBImpl) (f : Value → Value) (d : InsertData) :
    Except.map Prod.fst (renderInsert db (mapInsertValues f d)) =
    Except.map Prod.fst (renderInsert db d) := by
  by_cases hne : d.row_values = []
  · rw [renderInsert_err_empty db d hne,
      renderInsert_err_empty db (mapInsertValues f d) (by simp [mapInsertValues, hne])]
  · by_cases har : ∀ r ∈ d.row_values, r.length = d.columns.length
    · have har' : ∀ r ∈ (mapInsertValues f d).row_values,
          r.length = (mapInsertValues f d).columns.length := by
        intro r hr
        simp only [mapInsertValues, List.mem_map] at hr ⊢
        obtain ⟨row, hrow, hmap⟩ := hr
        rw [← hmap, List.length_map]
        exact har row hrow
      have hne' : (mapInsertValues f d).row_values ≠ [] := by
        simp only [mapInsertValues]
        simp [hne]
      cases hsup : supports db d.on_conflict with
      | false =>
        rw [renderInsert_err_conflict db d hne har hsup,
          renderInsert_err_conflict db (mapInsertValues f d) hne' har'
            (by simp [mapInsertValues, hsup])]
        simp [mapInsertValues]
      | true =>
        rw [renderInsert_ok db d hne har hsup,
          renderInsert_ok db (mapInsertValues f d) hne' har' (by simp [mapInsertValues, hsup])]
        simp only [Except.map, mapInsertValues]
        rw [renderRows_text f d.row_values d.lookup d.lookup rfl]
    · push_neg at har
      obtain ⟨r, hr, hl⟩ := har
      rw [renderInsert_err_arity db d r hr hl,
        renderInsert_err_arity db (mapInsertValues f d) (r.map f)
          (by simp only [mapInsertValues]; exact List.mem_map_of_mem _ hr)
          (by simp only [mapInsertValues, List.length_map]; exact hl)]

/-- Inversion of a successful SELECT render: the parameter list is the
accumulator followed by the WHERE clause's value leaves, and the
placeholders are numbered consecutively with the values' 1-based
positions. -/
theorem renderSelect_inv (db : DBImpl) (d : SelectData) (fs : List Frag) (ps : List Value)
    (h : renderSelect db d = Except.ok (fs, ps)) :
    ps = d.lookup ++ whereValues d.where_clause ∧
    phIndices fs = List.range' (d.lookup.length + 1) (whereValues d.where_clause).length := by
  rw [renderSelect] at h
  by_cases hf : d.from_clause = ""
  · rw [if_pos hf] at h
    exact absurd h (by simp)
  · rw [if_neg hf] at h
    by_cases hc : d.resulting_columns.isEmpty = true
    · rw [if_pos hc] at h
      exact absurd h (by simp)
    · rw [if_neg hc] at h
      cases hw : d.where_clause with
      | none =>
        rw [hw] at h
        simp only [] at h
        have hfs := congrArg (fun x : Except Error (List Frag × List Value) =>
          match x with | Except.ok p => p.1 | Except.error _ => []) h
        have hps := congrArg (fun x : Except Error (List Frag × List Value) =>
          match x with | Except.ok p => p.2 | Except.error _ => ([] : List Value)) h
        simp at hfs hps
        rw [← hfs, ← hps]
        refine ⟨by simp [whereValues], ?_⟩
        simp [whereValues, phIndices]
      | some c =>
        rw [hw] at h
        simp only [] at h
        have hfs := congrArg (fun x : Except Error (List Frag × List Value) =>
          match x with | Except.ok p => p.1 | Except.error _ => []) h
        have hps := congrArg (fun x : Except Error (List Frag × List Value) =>
          match x with | Except.ok p => p.2 | Except.error _ => ([] : List Value)) h
        simp at hfs hps
        rw [← hfs, ← hps]
        have hrc := renderCond_out db c d.lookup
        refine ⟨by rw [hrc.1]; simp [whereValues], ?_⟩
        rw [phIndices_lit, phIndices_lit, phIndices_append, hrc.2]
        simp [whereValues, phIndices]

/-- Pushing the elements satisfying a shallow-primary-key test, in input
order, is filtering. -/
theorem foldl_push_pk (anns : List Annotation) (init : List SQLAnnotation) :
    anns.foldl
      (fun acc x => if Annotation.eq_shallow x .PrimaryKey then acc ++ [⟨x⟩] else acc) init =
    init ++ (anns.filter (fun x => Annotation.eq_shallow x .PrimaryKey)).map
      (fun x => (⟨x⟩ : SQLAnnotation)) := by
  induction anns generalizing init with
  | nil => simp
  | cons a anns ih =>
    simp only [List.foldl_cons, List.filter_cons]
    cases h : Annotation.eq_shallow a .PrimaryKey with
    | true => simp [h, ih]
    | false => simp [h, ih]

/-- Rewriting a negated boolean ite to a positive one. -/
theorem ite_not_bool {α : Type} (b : Bool) (x y : α) :
    (if ¬ b = true then x else y) = if b = true then y else x := by
  cases b <;> simp

/-- Pushing the elements failing a shallow-primary-key test, in input
order, is filtering by the negated test. -/
theorem foldl_push_npk (anns : List Annotation) (init : List SQLAnnotation) :
    anns.foldl
      (fun acc x => if ¬ Annotation.eq_shallow x .PrimaryKey then acc ++ [⟨x⟩] else acc) init =
    init ++ (anns.filter (fun x => ! Annotation.eq_shallow x .PrimaryKey)).map
      (fun x => (⟨x⟩ : SQLAnnotation)) := by
  simp only [ite_not_bool]
  induction anns generalizing init with
  | nil => simp
  | cons a anns ih =>
    simp only [List.foldl_cons, List.filter_cons]
    cases h : Annotation.eq_shallow a .PrimaryKey with
    | true => simp [h, ih]
    | false => simp [h, ih]

/-! ## Claim theorems -/

/-- C1, counterexample to the claim as stated: for the MySQL dialect (and
likewise Postgres) the annotation list stored by `create_column` is empty
even though the input holds a PrimaryKey and a NotNull annotation, so the
stored list does not place the PrimaryKey annotation first followed by
the remaining annotations in input order (which here would be the
two-element list shown). -/
theorem C1_counterexample :
    (CreateColumnImpl.storedAnnotations
        (DBImpl.create_column DBImpl.MySQL "tab" "col" DbType.Int64
          [ Annotation.PrimaryKey, Annotation.NotNull])).map (fun s => s.1) = [] ∧
    [ Annotation.PrimaryKey, Annotation.NotNull].filter
        (fun x => Annotation.eq_shallow x .PrimaryKey) ++
      [ Annotation.PrimaryKey, Annotation.NotNull].filter
        (fun x => ! Annotation.eq_shallow x .PrimaryKey) =
      [ Annotation.PrimaryKey, Annotation.NotNull] ∧
    ([] : List Annotation) ≠ [ Annotation.PrimaryKey, Annotation.NotNull] := by
  refine ⟨?_, by decide, by decide⟩
  simp [DBImpl.create_column, CreateColumnImpl.storedAnnotations]

/-- C1 (amended): for the SQLite dialect the annotation list stored by
`create_column` contains exactly the input annotations, with every
PrimaryKey annotation first (in input order) and all remaining
annotations following in their original input order, for every
permutation of the input; for the MySQL and Postgres dialects
`create_column` stores an empty annotation list at construction. -/
theorem C1_pk_first_amended :
    (∀ (tn n : String) (dt : DbType) (anns : List Annotation),
      (CreateColumnImpl.storedAnnotations
          (DBImpl.create_column DBImpl.SQLite tn n dt anns)).map (fun s => s.1) =
        anns.filter (fun x => Annotation.eq_shallow x .PrimaryKey) ++
          anns.filter (fun x => ! Annotation.eq_shallow x .PrimaryKey) ∧
      ((CreateColumnImpl.storedAnnotations
          (DBImpl.create_column DBImpl.SQLite tn n dt anns)).map (fun s => s.1)).Perm anns) ∧
    (∀ (tn n : String) (dt : DbType) (anns : List Annotation),
      CreateColumnImpl.storedAnnotations (DBImpl.create_column DBImpl.MySQL tn n dt anns) = []) ∧
    (∀ (tn n : String) (dt : DbType) (anns : List Annotation),
      CreateColumnImpl.storedAnnotations
        (DBImpl.create_column DBImpl.Postgres tn n dt anns) = []) := by
  refine ⟨?_, ?_, ?_⟩
  · intro tn n dt anns
    have hstored : (CreateColumnImpl.storedAnnotations
        (DBImpl.create_column DBImpl.SQLite tn n dt anns)).map (fun s => s.1) =
        anns.filter (fun x => Annotation.eq_shallow x .PrimaryKey) ++
          anns.filter (fun x => ! Annotation.eq_shallow x .PrimaryKey) := by
      simp only [DBImpl.create_column, CreateColumnImpl.storedAnnotations]
      rw [foldl_push_npk, foldl_push_pk]
      simp only [List.nil_append, List.map_append, List.map_map]
      have hcomp : ((fun s : SQLAnnotation => s.1) ∘ fun x : Annotation =>
          (⟨x⟩ : SQLAnnotation)) = fun x => x := funext (fun x => rfl)
      rw [hcomp]
      simp
    refine ⟨hstored, ?_⟩
    rw [hstored]
    exact List.filter_append_perm _ anns
  · intro tn n dt anns
    simp [DBImpl.create_column, CreateColumnImpl.storedAnnotations]
  · intro tn n dt anns
    simp [DBImpl.create_column, CreateColumnImpl.storedAnnotations]

/-- C8, counterexample to the claim as stated: `create_trigger` — one of
the nine statement entry points — does not branch on the dialect at all:
it returns the identical, dialect-free `SQLCreateTrigger` struct for two
different dialects, so the builder it returns is not a variant
corresponding to the selected dialect. -/
theorem C8_counterexample :
    DBImpl.create_trigger DBImpl.SQLite "trig" "tbl" none SQLCreateTriggerOperation.Insert =
      DBImpl.create_trigger DBImpl.Postgres "trig" "tbl" none SQLCreateTriggerOperation.Insert ∧
    DBImpl.SQLite ≠ DBImpl.Postgres :=
  ⟨rfl, by decide⟩

/-- C8 (amended): eight of the nine statement entry points — all but
`create_trigger` — branch on the dialect exactly once, at builder
construction, and the builder each returns is the variant corresponding
to the selected dialect; `create_trigger` returns a dialect-independent
struct without branching. -/
theorem C8_dialect_once_amended (db : DBImpl) (n t f : String) (cols ic : List String)
    (op : AlterTableOperation) (rows : List (List Value)) :
    (DBImpl.create_table db n).dialect = db ∧
    (DBImpl.create_index db n t).dialect = db ∧
    (DBImpl.drop_table db n).dialect = db ∧
    (DBImpl.alter_table db n op).dialect = db ∧
    (DBImpl.select db cols f).dialect = db ∧
    (DBImpl.insert db t ic rows).dialect = db ∧
    (DBImpl.delete db t).dialect = db ∧
    (DBImpl.update db t).dialect = db := by
  cases db <;> exact ⟨rfl, rfl, rfl, rfl, rfl, rfl, rfl, rfl⟩

/-- C9: for every dialect, rendering an empty Conjunction yields the
always-true stub `1=1` and rendering an empty Disjunction yields the
always-false stub `1=0`, with the parameter list left untouched in both
cases. -/
theorem C9_empty_bool_groups (db : DBImpl) (l : List Value) :
    renderCond db (Condition.Conjunction []) l = ([Frag.lit "1=1"], l) ∧
    renderCond db (Condition.Disjunction []) l = ([Frag.lit "1=0"], l) ∧
    sqlText db [Frag.lit "1=1"] = "1=1" ∧
    sqlText db [Frag.lit "1=0"] = "1=0" :=
  ⟨rfl, rfl, rfl, rfl⟩

/-- C10: every freshly constructed builder starts in a neutral state: the
parameter lookup and statements accumulators are empty, every optional
boolean flag is false, and the Insert and Update builders start with the
on-conflict policy `ABORT`. -/
theorem C10_initial_state (db : DBImpl) (n t f : String)
    (p : Option SQLCreateTriggerPointInTime) (o : SQLCreateTriggerOperation)
    (op : AlterTableOperation) (cols ic : List String) (rows : List (List Value)) :
    (DBImpl.create_table db n).data.lookup = [] ∧
    (DBImpl.create_table db n).data.statements = [] ∧
    (DBImpl.create_table db n).data.if_not_exists = false ∧
    (DBImpl.create_trigger db n t p o).statements = [] ∧
    (DBImpl.create_trigger db n t p o).if_not_exists = false ∧
    (DBImpl.create_trigger db n t p o).for_each_row = false ∧
    (DBImpl.create_index db n t).data.unique = false ∧
    (DBImpl.create_index db n t).data.if_not_exists = false ∧
    (DBImpl.drop_table db n).data.if_exists = false ∧
    (DBImpl.alter_table db n op).data.lookup = [] ∧
    (DBImpl.alter_table db n op).data.statements = [] ∧
    (DBImpl.select db cols f).data.distinct = false ∧
    (DBImpl.select db cols f).data.lookup = [] ∧
    (DBImpl.insert db t ic rows).data.lookup = [] ∧
    (DBImpl.insert db t ic rows).data.on_conflict = OnConflict.ABORT ∧
    (DBImpl.delete db t).data.lookup = [] ∧
    (DBImpl.update db t).data.on_conflict = OnConflict.ABORT ∧
    (DBImpl.update db t).data.updates = [] ∧
    (DBImpl.update db t).data.lookup = [] := by
  cases db <;>
    exact ⟨rfl, rfl, rfl, rfl, rfl, rfl, rfl, rfl, rfl, rfl, rfl, rfl, rfl, rfl, rfl, rfl,
      rfl, rfl, rfl⟩

/-- C2: injection safety.  For every dialect, substituting every value
payload in a condition tree or an INSERT leaves the emitted fragments —
and hence the SQL text — unchanged, so no value payload ever appears as
literal text in the output; each value occurrence instead corresponds to
a placeholder, with the value itself appended to the parameter list. -/
theorem C2_injection_safety :
    (∀ (db : DBImpl) (f : Value → Value) (c : Condition) (l : List Value),
      (renderCond db (mapValues f c) l).1 = (renderCond db c l).1) ∧
    (∀ (db : DBImpl) (c : Condition) (l : List Value),
      (renderCond db c l).2 = l ++ condValues c) ∧
    (∀ (db : DBImpl) (f : Value → Value) (d : InsertData),
      Except.map Prod.fst (renderInsert db (mapInsertValues f d)) =
        Except.map Prod.fst (renderInsert db d)) ∧
    (∀ (db : DBImpl) (d : InsertData) (fs : List Frag) (ps : List Value),
      renderInsert db d = Except.ok (fs, ps) → ps = d.lookup ++ d.row_values.flatten) :=
  ⟨fun db f c l => renderCond_text db f c l l rfl,
   fun db c l => (renderCond_out db c l).1,
   renderInsert_text_map,
   fun db d fs ps h => (renderInsert_inv db d fs ps h).1⟩

/-- C2 witness: a concrete single-row INSERT whose rendered text holds
one placeholder and whose parameter list holds the value. -/
theorem C2_witness :
    renderInsert DBImpl.SQLite
        { into_clause := "t", columns := ["c"], row_values := [[Value.I64 7]],
          lookup := [], on_conflict := OnConflict.ABORT } =
      Except.ok
        ([Frag.lit "INSERT INTO \"t\" (\"c\") VALUES ", Frag.lit "(", Frag.placeholder 1,
          Frag.lit ")"], [Value.I64 7]) ∧
    [Value.I64 7] = ([] : List Value) ++ ([[Value.I64 7]] : List (List Value)).flatten := by
  have h : renderInsert DBImpl.SQLite
      { into_clause := "t", columns := ["c"], row_values := [[Value.I64 7]],
        lookup := [], on_conflict := OnConflict.ABORT } =
      Except.ok
        ([Frag.lit "INSERT INTO \"t\" (\"c\") VALUES ", Frag.lit "(", Frag.placeholder 1,
          Frag.lit ")"], [Value.I64 7]) := rfl
  exact ⟨h, C2_injection_safety.2.2.2 DBImpl.SQLite _ _ _ h⟩

/-- C3: for every render, the placeholders appear in the emitted
fragments in exactly the order the values are appended to the parameter
list, each placeholder carrying the 1-based position of its value; on
Postgres the placeholder renders as the numbered marker with exactly that
position. -/
theorem C3_placeholder_order :
    (∀ (db : DBImpl) (c : Condition) (l : List Value),
      (renderCond db c l).2 = l ++ condValues c ∧
      phIndices (renderCond db c l).1 = List.range' (l.length + 1) (condValues c).length) ∧
    (∀ (db : DBImpl) (d : InsertData) (fs : List Frag) (ps : List Value),
      renderInsert db d = Except.ok (fs, ps) →
        ps = d.lookup ++ d.row_values.flatten ∧
        phIndices fs = List.range' (d.lookup.length + 1) d.row_values.flatten.length) ∧
    (∀ (db : DBImpl) (d : SelectData) (fs : List Frag) (ps : List Value),
      renderSelect db d = Except.ok (fs, ps) →
        ps = d.lookup ++ whereValues d.where_clause ∧
        phIndices fs = List.range' (d.lookup.length + 1) (whereValues d.where_clause).length) ∧
    (∀ n : Nat, Frag.render DBImpl.Postgres (Frag.placeholder n) = "$" ++ toString n) :=
  ⟨renderCond_out, renderInsert_inv, renderSelect_inv, fun _ => rfl⟩

/-- C3 witness: a concrete Postgres SELECT with one WHERE comparison: one
placeholder, numbered `1`, and a one-element parameter list. -/
theorem C3_witness :
    renderSelect DBImpl.Postgres
        { resulting_columns := ["id", "name"], limit := none, offset := none,
          from_clause := "users",
          where_clause := some (Condition.BinaryValue "age" Comparator.GreaterOrEquals
            (Value.I64 18)),
          distinct := false, lookup := [] } =
      Except.ok
        ([Frag.lit "SELECT \"id\", \"name\" FROM \"users\"", Frag.lit " WHERE ",
          Frag.lit "age >= ", Frag.placeholder 1, Frag.lit ""], [Value.I64 18]) ∧
    ([Value.I64 18] = ([] : List Value) ++
      whereValues (some (Condition.BinaryValue "age" Comparator.GreaterOrEquals
        (Value.I64 18))) ∧
    phIndices
        [Frag.lit "SELECT \"id\", \"name\" FROM \"users\"", Frag.lit " WHERE ",
          Frag.lit "age >= ", Frag.placeholder 1, Frag.lit ""] =
      List.range' 1 (whereValues (some (Condition.BinaryValue "age"
        Comparator.GreaterOrEquals (Value.I64 18)))).length) := by
  have h : renderSelect DBImpl.Postgres
      { resulting_columns := ["id", "name"], limit := none, offset := none,
        from_clause := "users",
        where_clause := some (Condition.BinaryValue "age" Comparator.GreaterOrEquals
          (Value.I64 18)),
        distinct := false, lookup := [] } =
      Except.ok
        ([Frag.lit "SELECT \"id\", \"name\" FROM \"users\"", Frag.lit " WHERE ",
          Frag.lit "age >= ", Frag.placeholder 1, Frag.lit ""], [Value.I64 18]) := by
    rfl
  exact ⟨h, C3_placeholder_order.2.2.1 DBImpl.Postgres _ _ _ h⟩

/-- C4: a valid INSERT build (at least one row, every row's arity equal
to the column count) renders successfully with `rows.length *
cols.length` parameters, the values in row-major order, and the Nth
placeholder carrying position N. -/
theorem C4_insert_row_major (db : DBImpl) (t : String) (cols : List String)
    (rows : List (List Value)) (hne : rows ≠ [])
    (har : ∀ r ∈ rows, r.length = cols.length) :
    Except.map Prod.snd (InsertImpl.build (DBImpl.insert db t cols rows)) =
      Except.ok rows.flatten ∧
    Except.map (fun r : List Frag × List Value => r.2.length)
        (InsertImpl.build (DBImpl.insert db t cols rows)) =
      Except.ok (rows.length * cols.length) ∧
    Except.map (fun r : List Frag × List Value => phIndices r.1)
        (InsertImpl.build (DBImpl.insert db t cols rows)) =
      Except.ok (List.range' 1 (rows.length * cols.length)) := by
  have hflat : rows.flatten.length = rows.length * cols.length :=
    flatten_length_arity rows cols.length har
  cases db <;>
  · simp only [DBImpl.insert, InsertImpl.build]
    rw [renderInsert_ok _
      { into_clause := t, columns := cols, row_values := rows, lookup := [],
        on_conflict := OnConflict.ABORT } hne har rfl]
    refine ⟨by simp [Except.map], by simp [Except.map, hflat], ?_⟩
    simp only [Except.map]
    rw [renderInsert_ok_ph _
      { into_clause := t, columns := cols, row_values := rows, lookup := [],
        on_conflict := OnConflict.ABORT }]
    simp [hflat]

/-- C4 witness (spec §8 Scenario 3): two rows of two columns yield four
parameters in row-major order and placeholders numbered 1 to 4. -/
theorem C4_witness :
    (([[Value.I64 1, Value.Text "a"], [Value.I64 2, Value.Text "b"]] :
        List (List Value)) ≠ [] ∧
      ∀ r ∈ ([[Value.I64 1, Value.Text "a"], [Value.I64 2, Value.Text "b"]] :
        List (List Value)), r.length = (["id", "name"] : List String).length) ∧
    (Except.map Prod.snd (InsertImpl.build (DBImpl.insert DBImpl.Postgres "users" ["id", "name"]
        [[Value.I64 1, Value.Text "a"], [Value.I64 2, Value.Text "b"]])) =
      Except.ok ([[Value.I64 1, Value.Text "a"], [Value.I64 2, Value.Text "b"]] :
        List (List Value)).flatten ∧
    Except.map (fun r : List Frag × List Value => r.2.length)
        (InsertImpl.build (DBImpl.insert DBImpl.Postgres "users" ["id", "name"]
          [[Value.I64 1, Value.Text "a"], [Value.I64 2, Value.Text "b"]])) =
      Except.ok (([[Value.I64 1, Value.Text "a"], [Value.I64 2, Value.Text "b"]] :
        List (List Value)).length * (["id", "name"] : List String).length) ∧
    Except.map (fun r : List Frag × List Value => phIndices r.1)
        (InsertImpl.build (DBImpl.insert DBImpl.Postgres "users" ["id", "name"]
          [[Value.I64 1, Value.Text "a"], [Value.I64 2, Value.Text "b"]])) =
      Except.ok (List.range' 1 (([[Value.I64 1, Value.Text "a"],
        [Value.I64 2, Value.Text "b"]] : List (List Value)).length *
          (["id", "name"] : List String).length))) :=
  ⟨⟨by decide, by decide⟩,
    C4_insert_row_major DBImpl.Postgres "users" ["id", "name"]
      [[Value.I64 1, Value.Text "a"], [Value.I64 2, Value.Text "b"]] (by decide) (by decide)⟩

/-- C5: an INSERT in which some row's value count differs from the
declared column count fails at build time with `MalformedRequest`, for
every dialect, before any SQL text is produced. -/
theorem C5_arity_mismatch (db : DBImpl) (t : String) (cols : List String)
    (rows : List (List Value)) (r : List Value) (hr : r ∈ rows)
    (hl : r.length ≠ cols.length) :
    InsertImpl.build (DBImpl.insert db t cols rows) = Except.error Error.MalformedRequest := by
  cases db <;>
  · simp only [DBImpl.insert, InsertImpl.build]
    exact renderInsert_err_arity _ _ r hr hl

/-- C5 witness: a two-value row against a one-column list fails with
`MalformedRequest`. -/
theorem C5_witness :
    ([Value.I64 2, Value.I64 3] ∈ ([[Value.I64 1], [Value.I64 2, Value.I64 3]] :
        List (List Value)) ∧
      ([Value.I64 2, Value.I64 3] : List Value).length ≠ (["c"] : List String).length) ∧
    InsertImpl.build (DBImpl.insert DBImpl.SQLite "t" ["c"]
        [[Value.I64 1], [Value.I64 2, Value.I64 3]]) =
      Except.error Error.MalformedRequest :=
  ⟨⟨by decide, by decide⟩,
    C5_arity_mismatch DBImpl.SQLite "t" ["c"] [[Value.I64 1], [Value.I64 2, Value.I64 3]]
      [Value.I64 2, Value.I64 3] (by decide) (by decide)⟩

/-- C6: a terminal render on a builder missing a structurally required
field — a CreateTable with zero columns, a Select with no from-clause or
an empty result-column list, a CreateIndex with zero columns — returns
`MalformedRequest` and produces no `(text, parameters)` pair. -/
theorem C6_malformed_request :
    (∀ b : CreateTableImpl, b.data.columns = [] →
      b.build = Except.error Error.MalformedRequest) ∧
    (∀ b : SelectImpl, b.data.from_clause = "" ∨ b.data.resulting_columns = [] →
      b.build = Except.error Error.MalformedRequest) ∧
    (∀ b : CreateIndexImpl, b.data.columns = [] →
      b.build = Except.error Error.MalformedRequest) := by
  refine ⟨?_, ?_, ?_⟩
  · intro b h
    cases b <;>
    · simp only [CreateTableImpl.data] at h
      simp [CreateTableImpl.build, renderCreateTable, h]
  · intro b h
    cases b <;>
    · rename_i d
      simp only [SelectImpl.data] at h
      by_cases hf : d.from_clause = ""
      · simp [SelectImpl.build, renderSelect, hf]
      · rcases h with h | h
        · exact absurd h hf
        · simp [SelectImpl.build, renderSelect, hf, h]
  · intro b h
    cases b <;>
    · simp only [CreateIndexImpl.data] at h
      simp [CreateIndexImpl.build, renderCreateIndex, h]

/-- C6 witness: freshly constructed CreateTable, Select and CreateIndex
builders with the respective required fields missing all fail with
`MalformedRequest`. -/
theorem C6_witness :
    (DBImpl.create_table DBImpl.SQLite "tbl").data.columns = [] ∧
    CreateTableImpl.build (DBImpl.create_table DBImpl.SQLite "tbl") =
      Except.error Error.MalformedRequest ∧
    SelectImpl.build (DBImpl.select DBImpl.MySQL [] "users") =
      Except.error Error.MalformedRequest ∧
    CreateIndexImpl.build (DBImpl.create_index DBImpl.Postgres "idx" "tbl") =
      Except.error Error.MalformedRequest :=
  ⟨rfl,
    C6_malformed_request.1 (DBImpl.create_table DBImpl.SQLite "tbl") rfl,
    C6_malformed_request.2.1 (DBImpl.select DBImpl.MySQL [] "users") (Or.inr rfl),
    C6_malformed_request.2.2 (DBImpl.create_index DBImpl.Postgres "idx" "tbl") rfl⟩

/-- C7: an on-conflict policy with no representation on the selected
dialect — in this model, Upsert on MySQL — makes the resolver, and hence
the INSERT render, fail with the structured `UnsupportedOnDialect` error
naming the feature and the dialect; no fallback statement is produced
(the render returns the error instead of a `(text, parameters)` pair). -/
theorem C7_unsupported_on_dialect :
    (∀ (db : DBImpl) (p : OnConflict), supports db p = false →
      resolveOnConflict db p =
        Except.error (Error.UnsupportedOnDialect (OnConflict.featureName p) db)) ∧
    (∀ cols : List String, supports DBImpl.MySQL (OnConflict.Upsert cols) = false) ∧
    (∀ (db : DBImpl) (d : InsertData), d.row_values ≠ [] →
      (∀ r ∈ d.row_values, r.length = d.columns.length) →
      supports db d.on_conflict = false →
      renderInsert db d =
        Except.error (Error.UnsupportedOnDialect (OnConflict.featureName d.on_conflict) db)) :=
  ⟨fun db p h => by rw [resolveOnConflict, h]; simp,
   fun _ => rfl,
   renderInsert_err_conflict⟩

/-- C7 witness: a concrete upsert INSERT on MySQL fails with
`UnsupportedOnDialect "upsert" MySQL`. -/
theorem C7_witness :
    (supports DBImpl.MySQL (OnConflict.Upsert ["name"]) = false ∧
      ([[Value.Null]] : List (List Value)) ≠ [] ∧
      ∀ r ∈ ([[Value.Null]] : List (List Value)), r.length = (["c"] : List String).length) ∧
    renderInsert DBImpl.MySQL
        { into_clause := "t", columns := ["c"], row_values := [[Value.Null]],
          lookup := [], on_conflict := OnConflict.Upsert ["name"] } =
      Except.error (Error.UnsupportedOnDialect "upsert" DBImpl.MySQL) :=
  ⟨⟨rfl, by decide, by decide⟩,
    C7_unsupported_on_dialect.2.2 DBImpl.MySQL
      { into_clause := "t", columns := ["c"], row_values := [[Value.Null]],
        lookup := [], on_conflict := OnConflict.Upsert ["name"] }
      (by decide) (by decide) rfl⟩

end RormSql
